import Mathlib

/-!
# A shallow embedding of the `load-atoms` dataset resolution-and-caching pipeline

The repository distributes atomistic-materials-science datasets: a human
readable identifier is resolved to a metadata record (a per-dataset
`DatabaseEntry` yaml file), the associated raw files are downloaded and
verified, a declarative processing chain turns them into a sequence of
atomic structures, and the result is cached on disk.

The repository snapshot holds the documentation of two generations of the
backend (the Python modules themselves are not part of the snapshot, so the
definitions below are modelled from the repository's specification and
developer documentation):

* the older `load_atoms.database.backend.load_structures` pipeline
  (`docs/source/dev/dataset-loading.rst`, second revision, and
  `docs/source/dev/dataset-processing.rst`): manifest files are downloaded
  and checksum-verified, then a declarative `processing` chain of steps
  (`UnZip`, `SelectFile`, `ForEachFile`, `ReadASE`, `Rename`, `Custom`)
  maps the download directory to a list of structures;
* the current `load_atoms.database.backend.load_dataset_by_id` backend
  (latest `dataset-loading.rst` revision): the `DatabaseEntry` yaml is
  cached under `root/database-entries/<name>.yaml`, a dataset-specific
  importer script is downloaded and executed, and the resulting dataset is
  cached to `root/<name>.pkl` or `root/<name>.lmdb`; the metadata record's
  `files` and `processing` entries are retained for backwards
  compatibility only.

Machine-level details (actual byte formats, the `ase` parser, hashing) are
abstracted exactly where the specification treats them as opaque
capabilities.
-/

namespace LoadAtoms

/-- Association-list lookup by key, first match wins; this models both the
python `dict` lookups of the backend and filesystem lookups keyed by path. -/
def lookupK {κ α : Type} [DecidableEq κ] : List (κ × α) → κ → Option α
  | [], _ => none
  | (k, v) :: rest, k' => if k = k' then some v else lookupK rest k'

/-- Modelled from the spec: one atomic structure.  The species/positions and
the concrete numpy arrays play no role in any pipeline-level property, so a
field value is abstracted to a `Nat` code; what matters is the two keyed
field sets (`atoms.arrays` and `atoms.info` in `ase` terms). -/
structure Structure where
  perAtom : List (String × Nat)
  perStructure : List (String × Nat)
deriving DecidableEq

/-- Remove every binding of a key from a field set. -/
def removeKey (k : String) (fs : List (String × Nat)) : List (String × Nat) :=
  fs.filter (fun p => !(p.1 == k))

/-- Modelled from the spec: one `old-key → new-key` application of the
`Rename` step on a single field set — if `old` is present its value is moved
to `new`, silently overwriting any pre-existing `new` binding; if `old` is
absent the field set is untouched. -/
def renamePair (old new : String) (fs : List (String × Nat)) :
    List (String × Nat) :=
  match lookupK fs old with
  | none => fs
  | some v => (new, v) :: removeKey new (removeKey old fs)

/-- Modelled from the spec: the `Rename(mapping)` step applied to one
structure — each pair of the mapping is applied in turn to both the per-atom
and the per-structure field sets. -/
def renameStructure (m : List (String × String)) (s : Structure) : Structure :=
  m.foldl
    (fun acc p =>
      { perAtom := renamePair p.1 p.2 acc.perAtom
        perStructure := renamePair p.1 p.2 acc.perStructure })
    s

/-- Modelled from the spec: what the opaque structure-parsing library
(`ase.io.read`) does with one file — it either recognizes the file and
yields its structures, does not recognize it at all, or rejects it with a
parse error. -/
inductive ParseOutcome where
  | parsedAs (structs : List Structure)
  | notRecognized
  | corrupt
deriving DecidableEq

/-- A plain (non-archive) file, as contained inside a zip archive. -/
structure FlatFile where
  name : String
  bytes : List Nat
  parsed : ParseOutcome
deriving DecidableEq

/-- Modelled from the spec: a file of the working directory.  `bytes` is the
raw content the Checksum Verifier hashes, `parsed` is what the structure
parsing library would produce for it, and `archiveEntries` is nonempty
exactly when the file is a zip archive with those contained files. -/
structure DFile where
  name : String
  bytes : List Nat
  parsed : ParseOutcome
  archiveEntries : List FlatFile
deriving DecidableEq

/-- Lift a contained archive file to a working-directory file. -/
def FlatFile.toDFile (f : FlatFile) : DFile :=
  { name := f.name, bytes := f.bytes, parsed := f.parsed, archiveEntries := [] }

/-- The error taxonomy of the loading pipeline (spec section 7). -/
inductive LoadError where
  | notFound
  | network
  | integrity (file : String)
  | incompatibleVersion
  | schema
  | unknownStep (name : String)
  | stepConfig (name : String)
  | parse
deriving DecidableEq

/-- Modelled from the spec: a processing step
(`load_atoms.database.processing.Step`), the tagged variant the `processing`
key of a `DatabaseEntry` yaml is parsed into.  `forEachFile` carries a
nested sub-chain; `custom` stands for a dataset-specific script whose output
is modelled as the structure list the script would return. -/
inductive Step where
  | unZip
  | selectFile (file : String)
  | forEachFile (pat : String) (steps : List Step)
  | readASE
  | rename (mapping : List (String × String))
  | custom (output : List Structure)

/-- Modelled from the spec: minimal filename glob — a pattern with a leading
`*` matches by suffix (e.g. `*.xyz`), any other pattern matches exactly. -/
def globMatches (pat name : String) : Bool :=
  match pat.data with
  | '*' :: rest => List.isSuffixOf rest name.data
  | _ => name == pat

/-- Modelled from the spec: the `UnZip` step — every archive file of the
working directory is replaced by its contained files, other files are
kept. -/
def unzipDir (dir : List DFile) : List DFile :=
  dir.flatMap fun f =>
    if f.archiveEntries.isEmpty then [f] else f.archiveEntries.map FlatFile.toDFile

/-- Modelled from the spec: the `ReadASE` step's traversal of the working
directory — every recognized file contributes its structures in directory
order, unrecognized files are skipped, and a corrupt file aborts the whole
chain with a `ParseError`. -/
def parseDir : List DFile → Except LoadError (List Structure)
  | [] => Except.ok []
  | f :: fs =>
    match f.parsed with
    | ParseOutcome.corrupt => Except.error LoadError.parse
    | ParseOutcome.notRecognized => parseDir fs
    | ParseOutcome.parsedAs ss =>
      match parseDir fs with
      | Except.error e => Except.error e
      | Except.ok rest => Except.ok (ss ++ rest)

mutual

/-- Modelled from the spec: apply one processing step to the working
directory and the in-flight structure sequence
(`load_atoms.database.processing.Step.__call__`). -/
def runStep : Step → List DFile → List Structure →
    Except LoadError (List DFile × List Structure)
  | Step.unZip, dir, acc => Except.ok (unzipDir dir, acc)
  | Step.selectFile f, dir, acc =>
    Except.ok (dir.filter (fun d => d.name == f), acc)
  | Step.forEachFile pat ns, dir, acc =>
    match runOnEach ns (dir.filter (fun d => globMatches pat d.name)) with
    | Except.error e => Except.error e
    | Except.ok res => Except.ok (dir, acc ++ res)
  | Step.readASE, dir, acc =>
    match parseDir dir with
    | Except.error e => Except.error e
    | Except.ok ss => Except.ok (dir, acc ++ ss)
  | Step.rename m, dir, acc => Except.ok (dir, acc.map (renameStructure m))
  | Step.custom out, dir, _ => Except.ok (dir, out)
termination_by s _ _ => (sizeOf s, 0)

/-- Modelled from the spec: the `ForEachFile` helper — run the nested
sub-chain against each matched file in isolation and concatenate the
per-file structure sequences in match order. -/
def runOnEach : List Step → List DFile → Except LoadError (List Structure)
  | _, [] => Except.ok []
  | ns, f :: fs =>
    match runChain ns [f] [] with
    | Except.error e => Except.error e
    | Except.ok (_, ss) =>
      match runOnEach ns fs with
      | Except.error e => Except.error e
      | Except.ok rest => Except.ok (ss ++ rest)
termination_by ns fs => (sizeOf ns, 1 + fs.length)

/-- Modelled from the spec: run a whole processing chain
(`load_atoms.database.processing.Chain.__call__`) strictly in order,
threading the working directory and the in-flight structure sequence. -/
def runChain : List Step → List DFile → List Structure →
    Except LoadError (List DFile × List Structure)
  | [], dir, acc => Except.ok (dir, acc)
  | s :: ss, dir, acc =>
    match runStep s dir acc with
    | Except.error e => Except.error e
    | Except.ok (dir', acc') => runChain ss dir' acc'
termination_by ss _ _ => (sizeOf ss, 0)

end

/-- A package/dataset version, e.g. the `minimum_load_atoms_version: 0.2`
key of the metadata yaml files. -/
structure Version where
  major : Nat
  minor : Nat
deriving DecidableEq

/-- Strict lexicographic order on versions. -/
def Version.lt (a b : Version) : Bool :=
  Nat.blt a.major b.major || (a.major == b.major && Nat.blt a.minor b.minor)

/-- One entry of the `files` manifest of a `DatabaseEntry`: a
name (doubling as the download url key) together with the expected content
hash. -/
structure ManifestFile where
  name : String
  hash : Nat
deriving DecidableEq

/-- Modelled from the spec: the `load_atoms.database.DatabaseEntry` metadata
record parsed from a dataset's yaml file.  Presentation-only fields are kept
as plain strings; `processing = none` means the yaml had no `processing`
key. -/
structure DatasetRecord where
  name : String
  minimumVersion : Version
  description : String
  citation : String
  license : String
  files : List ManifestFile
  processing : Option (List Step)
  representativeStructure : Option Nat

/-- What fetching and parsing the metadata yaml of a known identifier
yields: either a well-formed record, or text the schema-validation layer
rejects with a `SchemaError`. -/
inductive EntryOutcome where
  | valid (entry : DatasetRecord)
  | malformed

/-- One observable network access of a load call. -/
inductive NetEvent where
  | metaFetch (id : String)
  | fileFetch (name : String)
deriving DecidableEq

/-- Modelled from the spec: the Checksum Verifier's content hash — an
executable stand-in for the truncated file digest recorded in the yaml
manifests; the pipeline only ever compares it for equality. -/
def hashBytes (bytes : List Nat) : Nat :=
  bytes.foldl (fun a b => (a * 31 + b + 1) % 1000000007) 7

/-- Modelled from the spec: the remote side an individual load call can
reach — the catalog of metadata yaml files (keyed by identifier), the raw
files the manifests refer to (keyed by name), and, for the entry-point
dispatch, the user's local filesystem (a path and the directory of files it
denotes; a path naming a single file maps to that one-file directory). -/
structure World where
  catalog : List (String × EntryOutcome)
  remote : List (String × DFile)
  localFS : List (String × List DFile)

/-- Modelled from the spec: the per-root on-disk cache of the
`load_structures` backend — the downloaded metadata records
(`root/name/name.yaml`), the persisted materialised datasets
(`root/name/name.xyz`) and the completion markers, written last, whose
presence makes a later call treat the identifier as cached. -/
structure CacheState where
  entries : List (String × DatasetRecord)
  datasets : List (String × List Structure)
  markers : List String

/-- Modelled from the spec: the Metadata Resolver — return the cached
metadata record if one exists on disk, otherwise fetch it from the remote
catalog (one network access), failing with `NotFoundError` for an unknown
identifier and `SchemaError` for malformed metadata text. -/
def resolveEntry (id : String) (w : World) (st : CacheState) :
    Except LoadError DatasetRecord × CacheState × List NetEvent :=
  match lookupK st.entries id with
  | some r => (Except.ok r, st, [])
  | none =>
    match lookupK w.catalog id with
    | none => (Except.error LoadError.notFound, st, [NetEvent.metaFetch id])
    | some EntryOutcome.malformed =>
      (Except.error LoadError.schema, st, [NetEvent.metaFetch id])
    | some (EntryOutcome.valid r) =>
      (Except.ok r, { st with entries := (id, r) :: st.entries },
        [NetEvent.metaFetch id])

/-- Modelled from the spec: the Fetcher + Checksum Verifier loop — each
manifest file is fetched in order and verified against its expected hash;
a transport failure aborts with `NetworkError`, a hash mismatch aborts with
`IntegrityError` naming the offending file.  Also returns the network
accesses performed. -/
def fetchAll (w : World) : List ManifestFile →
    Except LoadError (List DFile) × List NetEvent
  | [] => (Except.ok [], [])
  | mf :: rest =>
    match lookupK w.remote mf.name with
    | none => (Except.error LoadError.network, [NetEvent.fileFetch mf.name])
    | some df =>
      if hashBytes df.bytes = mf.hash then
        match fetchAll w rest with
        | (Except.error e, ev) => (Except.error e, NetEvent.fileFetch mf.name :: ev)
        | (Except.ok dir, ev) => (Except.ok (df :: dir), NetEvent.fileFetch mf.name :: ev)
      else (Except.error (LoadError.integrity mf.name), [NetEvent.fileFetch mf.name])

/-- Modelled from the spec: `load_atoms.database.backend.load_structures` —
resolve the metadata record, gate on the minimum compatible version, return
the persisted dataset if the identifier is already marked cached, otherwise
download and verify every manifest file, run the processing chain (the
default chain `[ReadASE]` if the record declares none), and persist the
result followed by the completion marker.  Besides the result it returns
the updated cache and the network accesses performed. -/
def load_structures (v : Version) (id : String) (w : World) (st : CacheState) :
    Except LoadError (List Structure) × CacheState × List NetEvent :=
  match resolveEntry id w st with
  | (Except.error e, st₁, ev₁) => (Except.error e, st₁, ev₁)
  | (Except.ok r, st₁, ev₁) =>
    if Version.lt v r.minimumVersion then
      (Except.error LoadError.incompatibleVersion, st₁, ev₁)
    else if st₁.markers.contains id then
      (Except.ok ((lookupK st₁.datasets id).getD []), st₁, ev₁)
    else
      match fetchAll w r.files with
      | (Except.error e, ev₂) => (Except.error e, st₁, ev₁ ++ ev₂)
      | (Except.ok dir, ev₂) =>
        match runChain (r.processing.getD [Step.readASE]) dir [] with
        | Except.error e => (Except.error e, st₁, ev₁ ++ ev₂)
        | Except.ok (_, structs) =>
          (Except.ok structs,
            { st₁ with
              datasets := (id, structs) :: st₁.datasets
              markers := id :: st₁.markers },
            ev₁ ++ ev₂)

/-- Modelled from the spec: the public entry point
(`load_dataset(identifier_or_path, root)`) dispatch for a string argument —
a path denoting an existing local file or directory bypasses metadata
resolution and caching entirely and runs the default processing chain
directly on it; anything else is treated as a catalog identifier.  (The
third accepted argument shape, an in-memory structure list, is wrapped
without I/O and does not interact with the cache at all.) -/
def load_dataset (v : Version) (arg : String) (w : World) (st : CacheState) :
    Except LoadError (List Structure) × CacheState × List NetEvent :=
  match lookupK w.localFS arg with
  | some dir =>
    ((runChain [Step.readASE] dir []).map Prod.snd, st, [])
  | none => load_structures v arg w st

/-! ## The current importer-based backend (`load_dataset_by_id`)

Per the latest `dataset-loading.rst` revision: the `DatabaseEntry` yaml is
downloaded to `root/database-entries/name.yaml`, compatibility is checked,
then — only if the dataset is not yet cached — a dataset-specific importer
script is downloaded and executed; the importer downloads and processes the
raw data files itself and returns the dataset, which is cached to
`root/name.pkl` or `root/name.lmdb`. -/

/-- Modelled from the spec: a dataset-specific importer script, as data —
the raw files it downloads and the dataset it returns. -/
structure ImporterScript where
  downloads : List String
  result : List Structure

/-- The remote side of the importer-based backend: the catalog of metadata
yaml files and the per-dataset importer scripts. -/
structure ImporterWorld where
  catalog : List (String × EntryOutcome)
  importers : List (String × ImporterScript)

/-- Modelled from the spec: the contents of the cache root used by
`load_dataset_by_id` — metadata records under `root/database-entries/`,
pickled datasets at `root/<name>.pkl`, LMDB-backed datasets at
`root/<name>.lmdb` (all keyed here by dataset identifier; `renderPath`
gives the actual path of each key). -/
structure Disk where
  entries : List (String × DatasetRecord)
  pkls : List (String × List Structure)
  lmdbs : List (String × List Structure)

/-- A location in the cache root of the importer-based backend. -/
inductive CachePath where
  | entry (id : String)
  | pkl (id : String)
  | lmdb (id : String)
deriving DecidableEq

/-- Modelled from the spec: the on-disk path of each cache location —
the metadata copy lives at `root/database-entries/<id>.yaml`, the final
materialised dataset at `root/<id>.pkl` or `root/<id>.lmdb`. -/
def renderPath (root : String) : CachePath → String
  | CachePath.entry id => root ++ "/database-entries/" ++ id ++ ".yaml"
  | CachePath.pkl id => root ++ "/" ++ id ++ ".pkl"
  | CachePath.lmdb id => root ++ "/" ++ id ++ ".lmdb"

/-- Modelled from the spec: the size heuristic choosing the pickle blob
over the LMDB store — datasets up to this many structures are pickled
(the docs fix only that the choice is made by size, not the cutoff). -/
def blobThreshold : Nat := 10000

/-- Modelled from the spec: resolve the `DatabaseEntry` for the
importer-based backend — use the copy cached under
`root/database-entries/`, else download it from the catalog. -/
def resolveEntryI (id : String) (w : ImporterWorld) (disk : Disk) :
    Except LoadError DatasetRecord × Disk × List NetEvent :=
  match lookupK disk.entries id with
  | some r => (Except.ok r, disk, [])
  | none =>
    match lookupK w.catalog id with
    | none => (Except.error LoadError.notFound, disk, [NetEvent.metaFetch id])
    | some EntryOutcome.malformed =>
      (Except.error LoadError.schema, disk, [NetEvent.metaFetch id])
    | some (EntryOutcome.valid r) =>
      (Except.ok r, { disk with entries := (id, r) :: disk.entries },
        [NetEvent.metaFetch id])

/-- Modelled from the spec:
`load_atoms.database.backend.load_dataset_by_id` — download the
`DatabaseEntry` yaml (cached under `root/database-entries/`), check version
compatibility, and, unless a cached dataset already exists at
`root/<id>.pkl` or `root/<id>.lmdb`, download and execute the
dataset-specific importer script (which downloads the raw data files
itself and returns the dataset) and cache its result, pickled or
LMDB-backed according to the size heuristic.  The record's `files` and
`processing` fields are never consulted. -/
def load_dataset_by_id (v : Version) (id : String) (w : ImporterWorld)
    (disk : Disk) :
    Except LoadError (List Structure) × Disk × List NetEvent :=
  match resolveEntryI id w disk with
  | (Except.error e, disk₁, ev₁) => (Except.error e, disk₁, ev₁)
  | (Except.ok r, disk₁, ev₁) =>
    if Version.lt v r.minimumVersion then
      (Except.error LoadError.incompatibleVersion, disk₁, ev₁)
    else
      match lookupK disk₁.pkls id with
      | some d => (Except.ok d, disk₁, ev₁)
      | none =>
        match lookupK disk₁.lmdbs id with
        | some d => (Except.ok d, disk₁, ev₁)
        | none =>
          match lookupK w.importers id with
          | none =>
            (Except.error LoadError.network, disk₁,
              ev₁ ++ [NetEvent.fileFetch (id ++ ".py")])
          | some s =>
            let ev₂ := ev₁ ++ NetEvent.fileFetch (id ++ ".py")
              :: s.downloads.map NetEvent.fileFetch
            if s.result.length ≤ blobThreshold then
              (Except.ok s.result,
                { disk₁ with pkls := (id, s.result) :: disk₁.pkls }, ev₂)
            else
              (Except.ok s.result,
                { disk₁ with lmdbs := (id, s.result) :: disk₁.lmdbs }, ev₂)

/-! ## Derived notions and concrete sample data -/

/-- The per-file structure lists of the files the parsing library
recognizes, in directory order — the claim's "concatenation of the parsed
structures" is the flattening of this list. -/
def recognizedStructs (dir : List DFile) : List (List Structure) :=
  dir.filterMap fun f =>
    match f.parsed with
    | ParseOutcome.parsedAs ss => some ss
    | _ => none

/-- The metadata-copy location asserted by the specification's cache-layout
sentence (`root/<identifier>/<identifier>.yaml`), stated here verbatim so
it can be compared with the layout of the modelled backend. -/
def claimedMetadataPath (root id : String) : String :=
  root ++ "/" ++ id ++ "/" ++ id ++ ".yaml"

/-- A sample structure carrying one per-atom and one per-structure field. -/
def sampleS (n : Nat) : Structure := ⟨[("forces", n)], [("energy", n)]⟩

/-- A sample working-directory file holding one structure. -/
def sampleFileA : DFile :=
  ⟨"a.xyz", [1], ParseOutcome.parsedAs [sampleS 1], []⟩

/-- A sample working-directory file holding two structures. -/
def sampleFileB : DFile :=
  ⟨"b.xyz", [2], ParseOutcome.parsedAs [sampleS 2, sampleS 3], []⟩

/-- A sample structure for the QM7 scenarios. -/
def qm7Structure : Structure := ⟨[], [("energy", 42)]⟩

/-- A sample `DatabaseEntry` for the QM7 dataset, shaped after
`database/QM7.yaml` (one manifest file, no `processing` key). -/
def qm7Record : DatasetRecord :=
  ⟨"QM7", ⟨0, 2⟩, "small molecules", "Montavon-12", "CC0",
    [⟨"QM7.extxyz", 99⟩], none, some 6492⟩

/-- A sample importer-backend world knowing only the QM7 dataset. -/
def qm7World : ImporterWorld :=
  ⟨[("QM7", EntryOutcome.valid qm7Record)],
    [("QM7", ⟨["QM7.extxyz"], [qm7Structure]⟩)]⟩

/-! ## Basic lemmas -/

@[simp] theorem lookupK_nil {κ α : Type} [DecidableEq κ] (k : κ) :
    lookupK ([] : List (κ × α)) k = none := rfl

@[simp] theorem lookupK_cons {κ α : Type} [DecidableEq κ] (k k' : κ) (v : α)
    (rest : List (κ × α)) :
    lookupK ((k, v) :: rest) k' = if k = k' then some v else lookupK rest k' := rfl

theorem lookupK_removeKey_self (k : String) (fs : List (String × Nat)) :
    lookupK (removeKey k fs) k = none := by
  induction fs with
  | nil => rfl
  | cons p rest ih =>
    obtain ⟨a, b⟩ := p
    simp only [removeKey, List.filter_cons] at ih ⊢
    by_cases h : a = k
    · simp [h, ih]
    · simp [h, lookupK, ih]

theorem lookupK_removeKey_of_ne (k k' : String) (hne : k ≠ k')
    (fs : List (String × Nat)) :
    lookupK (removeKey k fs) k' = lookupK fs k' := by
  induction fs with
  | nil => rfl
  | cons p rest ih =>
    obtain ⟨a, b⟩ := p
    simp only [removeKey, List.filter_cons] at ih ⊢
    by_cases h : a = k
    · subst h
      have hak : a ≠ k' := hne
      simp [lookupK, hak, ih]
    · simp [h, lookupK, ih]

/-- C7: for every structure in the in-flight sequence and every
old-key→new-key pair of a `Rename` step's mapping, a pair whose old key is
present in a field set moves its value to the new key (the old key is
removed, any pre-existing new-key value is silently overwritten), a pair
whose old key is absent leaves the field set unchanged, and the step itself
applies this renaming to every structure of the in-flight sequence. -/
theorem rename_fields_policy (old new : String) (hne : old ≠ new)
    (fs : List (String × Nat)) (m : List (String × String))
    (dir : List DFile) (acc : List Structure) :
    (∀ v, lookupK fs old = some v →
      lookupK (renamePair old new fs) new = some v ∧
      lookupK (renamePair old new fs) old = none) ∧
    (lookupK fs old = none → renamePair old new fs = fs) ∧
    runStep (Step.rename m) dir acc =
      Except.ok (dir, acc.map (renameStructure m)) := by
  refine ⟨?_, ?_, ?_⟩
  · intro v hv
    constructor
    · simp [renamePair, hv]
    · simp only [renamePair, hv, lookupK]
      have h1 : new ≠ old := fun h => hne h.symm
      simp [h1, lookupK_removeKey_of_ne new old h1, lookupK_removeKey_self]
  · intro hnone
    simp [renamePair, hnone]
  · simp [runStep]

/-- Witness for C7 at the spec's own example: applying
`Rename {"old": "new"}` to the field set `old = 5` (and no `new`) yields
`new = 5` with `old` gone. -/
theorem rename_fields_policy_witness :
    lookupK (renamePair "old" "new" [("old", 5)]) "new" = some 5 ∧
    lookupK (renamePair "old" "new" [("old", 5)]) "old" = none :=
  (rename_fields_policy "old" "new" (by decide) [("old", 5)] [] [] []).1 5 (by decide)

/-! ## Interpreter lemmas -/

theorem runOnEach_of_forall2 (ns : List Step) (files : List DFile)
    (outs : List (List Structure))
    (h : List.Forall₂ (fun f ss => ∃ d, runChain ns [f] [] = Except.ok (d, ss))
      files outs) :
    runOnEach ns files = Except.ok outs.flatten := by
  induction h with
  | nil => simp [runOnEach]
  | cons hfo hrest ih =>
    obtain ⟨d, hd⟩ := hfo
    simp [runOnEach, hd, ih]

theorem parseDir_of_no_corrupt (dir : List DFile)
    (h : ∀ f ∈ dir, f.parsed ≠ ParseOutcome.corrupt) :
    parseDir dir = Except.ok (recognizedStructs dir).flatten := by
  induction dir with
  | nil => simp [parseDir, recognizedStructs]
  | cons f fs ih =>
    have hf := h f (by simp)
    have hrest : ∀ g ∈ fs, g.parsed ≠ ParseOutcome.corrupt :=
      fun g hg => h g (by simp [hg])
    cases hp : f.parsed with
    | corrupt => exact absurd hp hf
    | notRecognized =>
      simp [parseDir, hp, recognizedStructs, List.filterMap_cons] at ih ⊢
      simp [ih hrest]
    | parsedAs ss =>
      simp only [parseDir, hp, ih hrest]
      simp [recognizedStructs, List.filterMap_cons, hp]

/-! ## Pipeline lemmas -/

theorem fetchAll_integrity (w : World) (files : List ManifestFile)
    (havail : ∀ mf ∈ files, ∃ df, lookupK w.remote mf.name = some df)
    (hbad : ∃ mf ∈ files, ∃ df, lookupK w.remote mf.name = some df ∧
      hashBytes df.bytes ≠ mf.hash) :
    ∃ g ∈ files, (∃ dfg, lookupK w.remote g.name = some dfg ∧
      hashBytes dfg.bytes ≠ g.hash) ∧
    ∃ ev, fetchAll w files = (Except.error (LoadError.integrity g.name), ev) := by
  induction files with
  | nil => simp at hbad
  | cons mf rest ih =>
    obtain ⟨df, hdf⟩ := havail mf (by simp)
    by_cases hmatch : hashBytes df.bytes = mf.hash
    · have hbadrest : ∃ g ∈ rest, ∃ dfg, lookupK w.remote g.name = some dfg ∧
          hashBytes dfg.bytes ≠ g.hash := by
        obtain ⟨g, hg, dfg, hdfg, hne⟩ := hbad
        rcases List.mem_cons.mp hg with hgh | hgt
        · subst hgh
          rw [hdf] at hdfg
          cases hdfg
          exact absurd hmatch hne
        · exact ⟨g, hgt, dfg, hdfg, hne⟩
      have havrest : ∀ g ∈ rest, ∃ dfg, lookupK w.remote g.name = some dfg :=
        fun g hg => havail g (by simp [hg])
      obtain ⟨g, hg, hw, ev, hev⟩ := ih havrest hbadrest
      refine ⟨g, by simp [hg], hw, NetEvent.fileFetch mf.name :: ev, ?_⟩
      simp [fetchAll, hdf, hmatch, hev]
    · refine ⟨mf, by simp, ⟨df, hdf, hmatch⟩, [NetEvent.fileFetch mf.name], ?_⟩
      simp [fetchAll, hdf, hmatch]

theorem resolveEntry_preserves (id : String) (w : World) (st : CacheState) :
    (resolveEntry id w st).2.1.markers = st.markers ∧
    (resolveEntry id w st).2.1.datasets = st.datasets := by
  unfold resolveEntry
  cases hl : lookupK st.entries id with
  | some r => simp
  | none =>
    cases hc : lookupK w.catalog id with
    | none => simp
    | some o => cases o <;> simp

theorem resolveEntryI_ok (id : String) (w : ImporterWorld) (disk : Disk)
    (r : DatasetRecord) (dk : Disk) (e1 : List NetEvent)
    (h : resolveEntryI id w disk = (Except.ok r, dk, e1)) :
    lookupK dk.entries id = some r ∧ dk.pkls = disk.pkls ∧
    dk.lmdbs = disk.lmdbs := by
  unfold resolveEntryI at h
  cases hl : lookupK disk.entries id with
  | some r' =>
    rw [hl] at h
    simp only [Prod.mk.injEq, Except.ok.injEq] at h
    obtain ⟨h1, h2, -⟩ := h
    subst h2
    exact ⟨h1 ▸ hl, rfl, rfl⟩
  | none =>
    rw [hl] at h
    cases hc : lookupK w.catalog id with
    | none => rw [hc] at h; simp at h
    | some o =>
      rw [hc] at h
      cases o with
      | malformed => simp at h
      | valid r' =>
        simp only [Prod.mk.injEq, Except.ok.injEq] at h
        obtain ⟨h1, h2, -⟩ := h
        subst h1
        rw [← h2]
        simp

/-! ## Claim theorems -/

/-- C1: if `load_dataset_by_id` succeeds for an identifier, then a second
call on the unchanged cache returns the very same structure sequence and
the very same on-disk state, and performs no network access at all. -/
theorem load_dataset_by_id_idempotent (v : Version) (id : String)
    (w : ImporterWorld) (disk : Disk) (d : List Structure) (disk₁ : Disk)
    (ev : List NetEvent)
    (h : load_dataset_by_id v id w disk = (Except.ok d, disk₁, ev)) :
    load_dataset_by_id v id w disk₁ = (Except.ok d, disk₁, []) := by
  rcases hres : resolveEntryI id w disk with ⟨er, dk, e1⟩
  cases er with
  | error e' => rw [load_dataset_by_id, hres] at h; simp at h
  | ok r =>
    obtain ⟨hent, hpk, hlm⟩ := resolveEntryI_ok id w disk r dk e1 hres
    rw [load_dataset_by_id, hres] at h
    by_cases hlt : Version.lt v r.minimumVersion = true
    · simp [hlt] at h
    · simp only [hlt, Bool.false_eq_true, if_false] at h
      cases hp : lookupK dk.pkls id with
      | some d' =>
        rw [hp] at h
        simp only [Prod.mk.injEq, Except.ok.injEq] at h
        obtain ⟨h1, h2, -⟩ := h
        subst h1; subst h2
        simp [load_dataset_by_id, resolveEntryI, hent, hlt, hp]
      | none =>
        rw [hp] at h
        cases hl : lookupK dk.lmdbs id with
        | some d' =>
          rw [hl] at h
          simp only [Prod.mk.injEq, Except.ok.injEq] at h
          obtain ⟨h1, h2, -⟩ := h
          subst h1; subst h2
          simp [load_dataset_by_id, resolveEntryI, hent, hlt, hp, hl]
        | none =>
          rw [hl] at h
          cases hi : lookupK w.importers id with
          | none => rw [hi] at h; simp at h
          | some s =>
            rw [hi] at h
            simp only [Prod.mk.injEq] at h
            by_cases hsize : s.result.length ≤ blobThreshold
            · rw [if_pos hsize] at h
              simp only [Prod.mk.injEq, Except.ok.injEq] at h
              obtain ⟨h1, h2, -⟩ := h
              subst h1
              rw [← h2]
              simp [load_dataset_by_id, resolveEntryI, hent, hlt, hp, hl]
            · rw [if_neg hsize] at h
              simp only [Prod.mk.injEq, Except.ok.injEq] at h
              obtain ⟨h1, h2, -⟩ := h
              subst h1
              rw [← h2]
              simp [load_dataset_by_id, resolveEntryI, hent, hlt, hp, hl, hsize]

/-- Witness for C1: after a first successful load of `QM7` from an empty
cache root, the second call returns the same dataset, leaves the disk
untouched and performs no network access. -/
theorem load_dataset_by_id_idempotent_witness :
    load_dataset_by_id ⟨0, 3⟩ "QM7" qm7World
      ⟨[("QM7", qm7Record)], [("QM7", [qm7Structure])], []⟩
      = (Except.ok [qm7Structure],
        ⟨[("QM7", qm7Record)], [("QM7", [qm7Structure])], []⟩, []) :=
  load_dataset_by_id_idempotent ⟨0, 3⟩ "QM7" qm7World ⟨[], [], []⟩
    [qm7Structure] ⟨[("QM7", qm7Record)], [("QM7", [qm7Structure])], []⟩
    [NetEvent.metaFetch "QM7", NetEvent.fileFetch ("QM7" ++ ".py"),
      NetEvent.fileFetch "QM7.extxyz"] rfl

/-- C2: an uncached catalog identifier is materialised by downloading and
executing the dataset-specific importer script — the result is exactly the
dataset the importer returns and the network accesses are the metadata
fetch, the script fetch and the raw files the importer itself downloads.
Because the metadata record `r` is universally quantified here (only its
version gate is constrained), its `files` and `processing` entries cannot
influence the result: they are not consulted during loading. -/
theorem importer_determines_result (v : Version) (id : String)
    (w : ImporterWorld) (disk : Disk) (r : DatasetRecord) (s : ImporterScript)
    (h1 : lookupK disk.entries id = none)
    (h2 : lookupK w.catalog id = some (EntryOutcome.valid r))
    (h3 : Version.lt v r.minimumVersion = false)
    (h4 : lookupK disk.pkls id = none)
    (h5 : lookupK disk.lmdbs id = none)
    (h6 : lookupK w.importers id = some s) :
    (load_dataset_by_id v id w disk).1 = Except.ok s.result ∧
    (load_dataset_by_id v id w disk).2.2 =
      NetEvent.metaFetch id :: NetEvent.fileFetch (id ++ ".py")
        :: s.downloads.map NetEvent.fileFetch := by
  by_cases hsize : s.result.length ≤ blobThreshold
  · simp [load_dataset_by_id, resolveEntryI, h1, h2, h3, h4, h5, h6, hsize]
  · simp [load_dataset_by_id, resolveEntryI, h1, h2, h3, h4, h5, h6, hsize]

/-- Witness for C2: the first load of `QM7` returns the importer's dataset
and downloads the metadata, the importer script and the importer's raw
file. -/
theorem importer_determines_result_witness :
    (load_dataset_by_id ⟨0, 3⟩ "QM7" qm7World ⟨[], [], []⟩).1
      = Except.ok [qm7Structure] ∧
    (load_dataset_by_id ⟨0, 3⟩ "QM7" qm7World ⟨[], [], []⟩).2.2 =
      NetEvent.metaFetch "QM7" :: NetEvent.fileFetch ("QM7" ++ ".py")
        :: List.map NetEvent.fileFetch ["QM7.extxyz"] :=
  importer_determines_result ⟨0, 3⟩ "QM7" qm7World ⟨[], [], []⟩ qm7Record
    ⟨["QM7.extxyz"], [qm7Structure]⟩ rfl rfl rfl rfl rfl rfl

/-- C3: if every manifest file of a fresh (unmarked) dataset is reachable
but some downloaded file's content hash differs from the checksum the
manifest records, then `load_structures` fails with an `IntegrityError`
naming a mismatching manifest file, and no completed cache marker is left
for the identifier. -/
theorem integrity_mismatch_aborts (v : Version) (id : String) (w : World)
    (st : CacheState) (r : DatasetRecord)
    (hentry : lookupK st.entries id = some r)
    (hver : Version.lt v r.minimumVersion = false)
    (hmark : id ∉ st.markers)
    (havail : ∀ mf ∈ r.files, ∃ df, lookupK w.remote mf.name = some df)
    (hbad : ∃ mf ∈ r.files, ∃ df, lookupK w.remote mf.name = some df ∧
      hashBytes df.bytes ≠ mf.hash) :
    ∃ g ∈ r.files,
      (∃ dfg, lookupK w.remote g.name = some dfg ∧
        hashBytes dfg.bytes ≠ g.hash) ∧
      (load_structures v id w st).1 = Except.error (LoadError.integrity g.name) ∧
      (load_structures v id w st).2.1.markers = st.markers ∧
      id ∉ (load_structures v id w st).2.1.markers := by
  obtain ⟨g, hg, hw, ev, hev⟩ := fetchAll_integrity w r.files havail hbad
  refine ⟨g, hg, hw, ?_⟩
  simp [load_structures, resolveEntry, hentry, hver, hmark, hev]

/-- Witness for C3: a dataset whose single manifest file is served with
content hashing to a value other than the recorded checksum fails with
`IntegrityError` naming that file and leaves no cache marker. -/
theorem integrity_mismatch_aborts_witness :
    ∃ g ∈ ([⟨"d.xyz", 0⟩] : List ManifestFile),
      (∃ dfg, lookupK ([("d.xyz", ⟨"d.xyz", [1], ParseOutcome.parsedAs [sampleS 1], []⟩)] :
          List (String × DFile)) g.name = some dfg ∧
        hashBytes dfg.bytes ≠ g.hash) ∧
      (load_structures ⟨0, 3⟩ "D"
        ⟨[("D", EntryOutcome.valid ⟨"D", ⟨0, 2⟩, "", "", "",
            [⟨"d.xyz", 0⟩], none, none⟩)],
          [("d.xyz", ⟨"d.xyz", [1], ParseOutcome.parsedAs [sampleS 1], []⟩)], []⟩
        ⟨[("D", ⟨"D", ⟨0, 2⟩, "", "", "", [⟨"d.xyz", 0⟩], none, none⟩)], [], []⟩).1
        = Except.error (LoadError.integrity g.name) ∧
      (load_structures ⟨0, 3⟩ "D"
        ⟨[("D", EntryOutcome.valid ⟨"D", ⟨0, 2⟩, "", "", "",
            [⟨"d.xyz", 0⟩], none, none⟩)],
          [("d.xyz", ⟨"d.xyz", [1], ParseOutcome.parsedAs [sampleS 1], []⟩)], []⟩
        ⟨[("D", ⟨"D", ⟨0, 2⟩, "", "", "", [⟨"d.xyz", 0⟩], none, none⟩)], [], []⟩).2.1.markers
        = [] ∧
      "D" ∉ (load_structures ⟨0, 3⟩ "D"
        ⟨[("D", EntryOutcome.valid ⟨"D", ⟨0, 2⟩, "", "", "",
            [⟨"d.xyz", 0⟩], none, none⟩)],
          [("d.xyz", ⟨"d.xyz", [1], ParseOutcome.parsedAs [sampleS 1], []⟩)], []⟩
        ⟨[("D", ⟨"D", ⟨0, 2⟩, "", "", "", [⟨"d.xyz", 0⟩], none, none⟩)], [], []⟩).2.1.markers :=
  integrity_mismatch_aborts ⟨0, 3⟩ "D"
    ⟨[("D", EntryOutcome.valid ⟨"D", ⟨0, 2⟩, "", "", "",
        [⟨"d.xyz", 0⟩], none, none⟩)],
      [("d.xyz", ⟨"d.xyz", [1], ParseOutcome.parsedAs [sampleS 1], []⟩)], []⟩
    ⟨[("D", ⟨"D", ⟨0, 2⟩, "", "", "", [⟨"d.xyz", 0⟩], none, none⟩)], [], []⟩
    ⟨"D", ⟨0, 2⟩, "", "", "", [⟨"d.xyz", 0⟩], none, none⟩
    rfl rfl (by simp)
    (fun mf hmf => by
      rw [List.mem_singleton.mp hmf]
      exact ⟨⟨"d.xyz", [1], ParseOutcome.parsedAs [sampleS 1], []⟩, rfl⟩)
    ⟨⟨"d.xyz", 0⟩, by simp,
      ⟨"d.xyz", [1], ParseOutcome.parsedAs [sampleS 1], []⟩, rfl, by decide⟩

/-- C4: a `DatabaseEntry` requiring a newer package than the running one
makes `load_dataset_by_id` fail with `IncompatibleVersionError`, after the
single metadata fetch and before any data file is fetched: the network log
of the run consists of the metadata fetch alone and contains no file
fetch. -/
theorem version_gate_before_fetch (v : Version) (id : String)
    (w : ImporterWorld) (disk : Disk) (r : DatasetRecord)
    (h1 : lookupK disk.entries id = none)
    (h2 : lookupK w.catalog id = some (EntryOutcome.valid r))
    (h3 : Version.lt v r.minimumVersion = true) :
    load_dataset_by_id v id w disk =
      (Except.error LoadError.incompatibleVersion,
        { disk with entries := (id, r) :: disk.entries },
        [NetEvent.metaFetch id]) ∧
    ∀ n, NetEvent.fileFetch n ∉ ([NetEvent.metaFetch id] : List NetEvent) := by
  constructor
  · simp [load_dataset_by_id, resolveEntryI, h1, h2, h3]
  · intro n
    simp

/-- Witness for C4: a running package version `0.1` loading a dataset that
requires `0.2` fails with `IncompatibleVersionError` having fetched only
the metadata. -/
theorem version_gate_before_fetch_witness :
    load_dataset_by_id ⟨0, 1⟩ "QM7" qm7World ⟨[], [], []⟩ =
      (Except.error LoadError.incompatibleVersion,
        { (⟨[], [], []⟩ : Disk) with entries := [("QM7", qm7Record)] },
        [NetEvent.metaFetch "QM7"]) ∧
    ∀ n, NetEvent.fileFetch n ∉ ([NetEvent.metaFetch "QM7"] : List NetEvent) :=
  version_gate_before_fetch ⟨0, 1⟩ "QM7" qm7World ⟨[], [], []⟩ qm7Record
    rfl rfl rfl

/-- C5: every failing `load_structures` call is fatal as a whole — the
result is an error, not a partial dataset — and it leaves the persisted
datasets and completion markers exactly as they were, so no failed load can
leave state a subsequent call would treat as a completed cache (the marker
is only ever written together with the dataset on full success). -/
theorem failed_load_preserves_cache (v : Version) (id : String) (w : World)
    (st : CacheState) (e : LoadError) (st₁ : CacheState) (ev : List NetEvent)
    (h : load_structures v id w st = (Except.error e, st₁, ev)) :
    st₁.markers = st.markers ∧ st₁.datasets = st.datasets := by
  have hpres := resolveEntry_preserves id w st
  rcases hres : resolveEntry id w st with ⟨er, st', ev'⟩
  rw [hres] at hpres
  simp only at hpres
  cases er with
  | error e' =>
    rw [load_structures, hres] at h
    simp only [Prod.mk.injEq] at h
    obtain ⟨-, h2, -⟩ := h
    rw [← h2]
    exact hpres
  | ok r =>
    rw [load_structures, hres] at h
    by_cases hlt : Version.lt v r.minimumVersion = true
    · simp only [hlt, if_true, Prod.mk.injEq] at h
      obtain ⟨-, h2, -⟩ := h
      rw [← h2]
      exact hpres
    · by_cases hm : id ∈ st'.markers
      · simp [hlt, hm] at h
      · rcases hfet : fetchAll w r.files with ⟨fr, ev₂⟩
        cases fr with
        | error e₂ =>
          simp [hlt, hm, hfet] at h
          obtain ⟨-, h2, -⟩ := h
          rw [← h2]
          exact hpres
        | ok dir =>
          rcases hrc : runChain (r.processing.getD [Step.readASE]) dir []
            with e₃ | p
          · simp [hlt, hm, hfet, hrc] at h
            obtain ⟨-, h2, -⟩ := h
            rw [← h2]
            exact hpres
          · simp [hlt, hm, hfet, hrc] at h

/-- Witness for C5: a load of an identifier unknown to the catalog fails
with `NotFoundError` and leaves markers and datasets untouched. -/
theorem failed_load_preserves_cache_witness :
    ([] : List String) = [] ∧
    ([("other", [sampleS 1])] : List (String × List Structure))
      = [("other", [sampleS 1])] :=
  failed_load_preserves_cache ⟨0, 3⟩ "nope" ⟨[], [], []⟩
    ⟨[], [("other", [sampleS 1])], []⟩ LoadError.notFound
    ⟨[], [("other", [sampleS 1])], []⟩ [NetEvent.metaFetch "nope"] rfl

/-- C6: the `ForEachFile(pattern, nestedSteps)` step runs the nested
sub-chain on each file matching the pattern in directory-listing order, in
isolation, and returns the concatenation of the per-file structure
sequences in match order, whence the result length is the sum of the
per-file counts. -/
theorem forEachFile_concat (pat : String) (ns : List Step) (dir : List DFile)
    (outs : List (List Structure)) (acc : List Structure)
    (h : List.Forall₂ (fun f ss => ∃ d, runChain ns [f] [] = Except.ok (d, ss))
      (dir.filter (fun f => globMatches pat f.name)) outs) :
    runStep (Step.forEachFile pat ns) dir acc
      = Except.ok (dir, acc ++ outs.flatten) ∧
    outs.flatten.length = (outs.map List.length).sum := by
  constructor
  · simp [runStep, runOnEach_of_forall2 ns _ outs h]
  · exact List.length_flatten outs

/-- Witness for C6: `ForEachFile("*.xyz", [ReadASE])` over two files with
one and two structures yields their concatenation, of length `1 + 2`. -/
theorem forEachFile_concat_witness :
    runStep (Step.forEachFile "*.xyz" [Step.readASE]) [sampleFileA, sampleFileB] []
      = Except.ok ([sampleFileA, sampleFileB], [sampleS 1, sampleS 2, sampleS 3]) ∧
    (3 : Nat) = 1 + 2 := by
  have hfil : List.filter (fun f => globMatches "*.xyz" f.name)
      [sampleFileA, sampleFileB] = [sampleFileA, sampleFileB] := by decide
  have h : List.Forall₂
      (fun f ss => ∃ d, runChain [Step.readASE] [f] [] = Except.ok (d, ss))
      (List.filter (fun f => globMatches "*.xyz" f.name)
        [sampleFileA, sampleFileB])
      [[sampleS 1], [sampleS 2, sampleS 3]] := by
    rw [hfil]
    refine List.Forall₂.cons ⟨[sampleFileA], ?_⟩
      (List.Forall₂.cons ⟨[sampleFileB], ?_⟩ List.Forall₂.nil)
    · simp [runChain, runStep, parseDir, sampleFileA]
    · simp [runChain, runStep, parseDir, sampleFileB]
  have hc := forEachFile_concat "*.xyz" [Step.readASE] [sampleFileA, sampleFileB]
    [[sampleS 1], [sampleS 2, sampleS 3]] [] h
  simpa using hc

/-- C8: when the `DatabaseEntry` declares no `processing` chain, a fresh
successful load runs exactly the default chain — `ReadASE` over the full
directory of downloaded files — so the materialised dataset is the
concatenation, in directory order, of the structures of every file the
parsing library recognizes. -/
theorem default_chain_reads_all (v : Version) (id : String) (w : World)
    (st : CacheState) (r : DatasetRecord) (dir : List DFile) (ev₂ : List NetEvent)
    (hentry : lookupK st.entries id = some r)
    (hproc : r.processing = none)
    (hver : Version.lt v r.minimumVersion = false)
    (hmark : id ∉ st.markers)
    (hfetch : fetchAll w r.files = (Except.ok dir, ev₂))
    (hok : ∀ f ∈ dir, f.parsed ≠ ParseOutcome.corrupt) :
    load_structures v id w st =
      (Except.ok (recognizedStructs dir).flatten,
        { st with
          datasets := (id, (recognizedStructs dir).flatten) :: st.datasets
          markers := id :: st.markers },
        ev₂) := by
  have hrc : runChain [Step.readASE] dir [] =
      Except.ok (dir, (recognizedStructs dir).flatten) := by
    simp [runChain, runStep, parseDir_of_no_corrupt dir hok]
  simp [load_structures, resolveEntry, hentry, hver, hmark, hfetch, hproc, hrc]

/-- Witness for C8: a record without a `processing` key whose manifest
serves one recognized file (one structure) and one unrecognized file loads
the single structure of the recognized file. -/
theorem default_chain_reads_all_witness :
    load_structures ⟨0, 3⟩ "D"
      ⟨[("D", EntryOutcome.valid ⟨"D", ⟨0, 2⟩, "", "", "",
          [⟨"a.xyz", 219⟩, ⟨"n.txt", 226⟩], none, none⟩)],
        [("a.xyz", sampleFileA),
          ("n.txt", ⟨"n.txt", [8], ParseOutcome.notRecognized, []⟩)], []⟩
      ⟨[("D", ⟨"D", ⟨0, 2⟩, "", "", "",
          [⟨"a.xyz", 219⟩, ⟨"n.txt", 226⟩], none, none⟩)], [], []⟩ =
      (Except.ok (recognizedStructs
          [sampleFileA, ⟨"n.txt", [8], ParseOutcome.notRecognized, []⟩]).flatten,
        { (⟨[("D", ⟨"D", ⟨0, 2⟩, "", "", "",
            [⟨"a.xyz", 219⟩, ⟨"n.txt", 226⟩], none, none⟩)], [], []⟩ : CacheState) with
          datasets := [("D", (recognizedStructs
            [sampleFileA, ⟨"n.txt", [8], ParseOutcome.notRecognized, []⟩]).flatten)]
          markers := ["D"] },
        [NetEvent.fileFetch "a.xyz", NetEvent.fileFetch "n.txt"]) :=
  default_chain_reads_all ⟨0, 3⟩ "D"
    ⟨[("D", EntryOutcome.valid ⟨"D", ⟨0, 2⟩, "", "", "",
        [⟨"a.xyz", 219⟩, ⟨"n.txt", 226⟩], none, none⟩)],
      [("a.xyz", sampleFileA),
        ("n.txt", ⟨"n.txt", [8], ParseOutcome.notRecognized, []⟩)], []⟩
    ⟨[("D", ⟨"D", ⟨0, 2⟩, "", "", "",
        [⟨"a.xyz", 219⟩, ⟨"n.txt", 226⟩], none, none⟩)], [], []⟩
    ⟨"D", ⟨0, 2⟩, "", "", "", [⟨"a.xyz", 219⟩, ⟨"n.txt", 226⟩], none, none⟩
    [sampleFileA, ⟨"n.txt", [8], ParseOutcome.notRecognized, []⟩]
    [NetEvent.fileFetch "a.xyz", NetEvent.fileFetch "n.txt"]
    rfl rfl rfl (by simp) rfl (by decide)

/-- C9: a string argument denoting an existing local file or directory
bypasses metadata resolution and fetching entirely: `load_dataset` runs the
default chain directly on the contents denoted by the path, performs no
network access, and returns the cache root's state unchanged — nothing is
cached, so the user's file would be re-read by any later call. -/
theorem path_bypass_no_cache_no_net (v : Version) (p : String) (w : World)
    (st : CacheState) (dir : List DFile)
    (h : lookupK w.localFS p = some dir) :
    load_dataset v p w st =
      ((runChain [Step.readASE] dir []).map Prod.snd, st, []) := by
  simp [load_dataset, h]

/-- Witness for C9: loading a local `.xyz` file parses it directly, leaves
a nonempty cache root untouched and performs no network access. -/
theorem path_bypass_no_cache_no_net_witness :
    load_dataset ⟨0, 3⟩ "data/structures.xyz"
      ⟨[], [], [("data/structures.xyz", [sampleFileA])]⟩
      ⟨[], [("other", [sampleS 2])], ["other"]⟩ =
      (Except.ok [sampleS 1], ⟨[], [("other", [sampleS 2])], ["other"]⟩, []) := by
  have h := path_bypass_no_cache_no_net ⟨0, 3⟩ "data/structures.xyz"
    ⟨[], [], [("data/structures.xyz", [sampleFileA])]⟩
    ⟨[], [("other", [sampleS 2])], ["other"]⟩ [sampleFileA] rfl
  rw [h]
  simp [runChain, runStep, parseDir, sampleFileA, Except.map]

/-- C10 (counterexample): the claimed layout places the resolved metadata
copy at `root/<id>/<id>.yaml`, but for a concrete successful load of `QM7`
the modelled backend caches the metadata copy under the `entry` key, whose
on-disk path is `root/database-entries/QM7.yaml` — a different path. -/
theorem cache_layout_claim_counterexample :
    (load_dataset_by_id ⟨0, 3⟩ "QM7" qm7World ⟨[], [], []⟩).1
      = Except.ok [qm7Structure] ∧
    lookupK (load_dataset_by_id ⟨0, 3⟩ "QM7" qm7World ⟨[], [], []⟩).2.1.entries
      "QM7" = some qm7Record ∧
    renderPath "root" (CachePath.entry "QM7") ≠ claimedMetadataPath "root" "QM7" :=
  ⟨rfl, rfl, by decide⟩

/-- C10 (amended): after a fresh successful load the resolved metadata copy
is cached at `root/database-entries/<id>.yaml`, and the final materialised
dataset at `root/<id>.pkl` (single-file pickle blob) or `root/<id>.lmdb`
(LMDB store), the choice made by the size heuristic on the structure
count. -/
theorem cache_layout_importer (v : Version) (id root : String)
    (w : ImporterWorld) (disk : Disk) (r : DatasetRecord) (s : ImporterScript)
    (h1 : lookupK disk.entries id = none)
    (h2 : lookupK w.catalog id = some (EntryOutcome.valid r))
    (h3 : Version.lt v r.minimumVersion = false)
    (h4 : lookupK disk.pkls id = none)
    (h5 : lookupK disk.lmdbs id = none)
    (h6 : lookupK w.importers id = some s) :
    lookupK (load_dataset_by_id v id w disk).2.1.entries id = some r ∧
    (s.result.length ≤ blobThreshold →
      lookupK (load_dataset_by_id v id w disk).2.1.pkls id = some s.result ∧
      lookupK (load_dataset_by_id v id w disk).2.1.lmdbs id = none) ∧
    (¬ s.result.length ≤ blobThreshold →
      lookupK (load_dataset_by_id v id w disk).2.1.lmdbs id = some s.result ∧
      lookupK (load_dataset_by_id v id w disk).2.1.pkls id = none) ∧
    renderPath root (CachePath.entry id)
      = root ++ "/database-entries/" ++ id ++ ".yaml" ∧
    renderPath root (CachePath.pkl id) = root ++ "/" ++ id ++ ".pkl" ∧
    renderPath root (CachePath.lmdb id) = root ++ "/" ++ id ++ ".lmdb" := by
  by_cases hsize : s.result.length ≤ blobThreshold
  · simp [load_dataset_by_id, resolveEntryI, h1, h2, h3, h4, h5, h6, hsize,
      renderPath]
  · simp [load_dataset_by_id, resolveEntryI, h1, h2, h3, h4, h5, h6, hsize,
      renderPath]

/-- Witness for the amended C10: the fresh `QM7` load caches the metadata
under the entry key and the one-structure dataset under the pickle key. -/
theorem cache_layout_importer_witness :
    lookupK (load_dataset_by_id ⟨0, 3⟩ "QM7" qm7World ⟨[], [], []⟩).2.1.entries
      "QM7" = some qm7Record ∧
    ((⟨["QM7.extxyz"], [qm7Structure]⟩ : ImporterScript).result.length ≤ blobThreshold →
      lookupK (load_dataset_by_id ⟨0, 3⟩ "QM7" qm7World ⟨[], [], []⟩).2.1.pkls
        "QM7" = some [qm7Structure] ∧
      lookupK (load_dataset_by_id ⟨0, 3⟩ "QM7" qm7World ⟨[], [], []⟩).2.1.lmdbs
        "QM7" = none) ∧
    (¬ (⟨["QM7.extxyz"], [qm7Structure]⟩ : ImporterScript).result.length ≤ blobThreshold →
      lookupK (load_dataset_by_id ⟨0, 3⟩ "QM7" qm7World ⟨[], [], []⟩).2.1.lmdbs
        "QM7" = some [qm7Structure] ∧
      lookupK (load_dataset_by_id ⟨0, 3⟩ "QM7" qm7World ⟨[], [], []⟩).2.1.pkls
        "QM7" = none) ∧
    renderPath "root" (CachePath.entry "QM7")
      = "root" ++ "/database-entries/" ++ "QM7" ++ ".yaml" ∧
    renderPath "root" (CachePath.pkl "QM7") = "root" ++ "/" ++ "QM7" ++ ".pkl" ∧
    renderPath "root" (CachePath.lmdb "QM7") = "root" ++ "/" ++ "QM7" ++ ".lmdb" :=
  cache_layout_importer ⟨0, 3⟩ "QM7" "root" qm7World ⟨[], [], []⟩ qm7Record
    ⟨["QM7.extxyz"], [qm7Structure]⟩ rfl rfl rfl rfl rfl rfl

end LoadAtoms
